import Mathlib

/-!
Verification development for the pats-model repository: shallow embeddings of
the radar decoder (`src/utils/compare_chart/radar_reader.py`), the derived
relative-error channel (`src/utils/cape.py`), the color-map construction
(`src/utils/compare_chart/colormaps.py`), the coordinate merge and the
scattered-point interpolation contract, together with theorems settling the
specification's claims about them.
-/

set_option autoImplicit false

namespace PatsModel

/-! ### Radar decoder — `src/utils/compare_chart/radar_reader.py`

`get_radar_data` reads the rainbow container, extracts `@min`, `@max`,
`datamap/@depth` and `datamap/data`, and rescales the raw samples by
`datamin + rawdata * ((datamax - datamin) / 2**datadepth)`.  The parsed
container is modelled as a record of optional fields (an absent key makes the
Python dict lookup fail); the bit depth is an integer number of bits, raw
samples a flat list of numbers. -/

structure RainbowDict where
  datamin? : Option ℚ
  datamax? : Option ℚ
  datadepth? : Option ℕ
  rawdata? : Option (List ℚ)
  deriving DecidableEq

inductive RadarErr where
  | keyError
  deriving DecidableEq

/-- The affine rescale applied to one raw sample
(`radar_reader.py` line 13): `datamin + raw * ((datamax - datamin) / 2**datadepth)`. -/
def decode_cell (datamin datamax : ℚ) (datadepth : ℕ) (raw : ℚ) : ℚ :=
  datamin + raw * ((datamax - datamin) / (2 ^ datadepth))

/-- `get_radar_data`: look up the four fields (a missing key is a lookup
error) and rescale every raw sample.  The source performs no validation of
the raw samples against the bit depth. -/
def get_radar_data (d : RainbowDict) : Except RadarErr (List ℚ) :=
  match d.datamin?, d.datamax?, d.datadepth?, d.rawdata? with
  | some datamin, some datamax, some datadepth, some rawdata =>
    Except.ok (rawdata.map (decode_cell datamin datamax datadepth))
  | _, _, _, _ => Except.error RadarErr.keyError

/-! ### Relative-error channel — `src/utils/cape.py` lines 24–28

```
conv['diff'] = conv['CAPE3D'] - conv['CAPE1D']
conv['rel_err'] = (conv['diff'].abs() / conv['CAPE1D']) * 100
conv['rel_err'] = conv['rel_err'].fillna(0)
conv['rel_err'].replace(numpy.inf, 100, inplace=True)
```

Pandas columns hold IEEE floats, so division by zero yields `inf`/`-inf`/`nan`
rather than failing; `PandasVal` captures exactly those extended values for
exact rational payloads. -/

inductive PandasVal where
  | num (q : ℚ)
  | posInf
  | negInf
  | nan
  deriving DecidableEq

/-- Float division of two exact values, with the IEEE special cases produced
by a zero divisor. -/
def pandasDiv (a b : ℚ) : PandasVal :=
  if b = 0 then
    if a = 0 then PandasVal.nan
    else if 0 < a then PandasVal.posInf
    else PandasVal.negInf
  else PandasVal.num (a / b)

/-- Multiplication of a column value by the positive constant 100. -/
def pandasMul100 : PandasVal → PandasVal
  | PandasVal.num q => PandasVal.num (q * 100)
  | PandasVal.posInf => PandasVal.posInf
  | PandasVal.negInf => PandasVal.negInf
  | PandasVal.nan => PandasVal.nan

/-- `Series.fillna(0)`: replace `nan` with 0. -/
def fillna0 : PandasVal → PandasVal
  | PandasVal.nan => PandasVal.num 0
  | v => v

/-- `Series.replace(numpy.inf, 100)`: replace positive infinity with 100. -/
def replaceInf100 : PandasVal → PandasVal
  | PandasVal.posInf => PandasVal.num 100
  | v => v

/-- The full derived relative-error channel of `cape.py` for one row:
`|CAPE3D - CAPE1D| / CAPE1D * 100`, then `fillna(0)`, then
`replace(inf, 100)`. -/
def rel_err (cape1d cape3d : ℚ) : PandasVal :=
  replaceInf100 (fillna0 (pandasMul100 (pandasDiv |cape3d - cape1d| cape1d)))

/-! ### Coordinate merge — `pandas.merge(conv1d, conv3d)`
(`src/utils/cape.py` line 23, `src/utils/compare_chart/plot.py` line 22)

Both frames carry the columns `Lon`, `Lat` and one value channel, so the call
merges on the shared coordinate columns with the default `how='inner'`. -/

/-- One row of a single-channel frame: `(Lon, Lat, value)`. -/
structure Row3 where
  lon : ℚ
  lat : ℚ
  v : ℚ
  deriving DecidableEq

/-- One row of the merged frame: the shared coordinates together with the
value channels of both inputs. -/
structure Row4 where
  lon : ℚ
  lat : ℚ
  v1 : ℚ
  v2 : ℚ
  deriving DecidableEq

/-- Modelled from the spec: `pandas.merge` with the default inner join on the
shared coordinate columns — every pair of rows agreeing exactly on
`(Lon, Lat)` produces one output row carrying both value channels; rows
without a partner are dropped. -/
def merge (a b : List Row3) : List Row4 :=
  a.flatMap fun ra =>
    (b.filter fun rb => rb.lon = ra.lon ∧ rb.lat = ra.lat).map fun rb =>
      ⟨ra.lon, ra.lat, ra.v, rb.v⟩

/-! ### Color maps — `src/utils/compare_chart/colormaps.py`

`hex_to_rgb` strips `#`, splits the string into `len/3`-sized chunks and
parses each as a base-16 integer (Python `int(_, 16)`, which fails on an
empty or malformed chunk; Python `range(0, lv, 0)` likewise fails when the
stripped string is shorter than 3 characters).  `rgb_to_dec` divides each
component by 256.  `get_continuous_cmap` appends the per-anchor alpha to each
decoded color (indexing `alpha_list` — an out-of-range index fails) and then
builds, for each of the four channels, the control-point list
`[[float_list[i], v, v] for i in range(len(float_list))]` (indexing the
decoded colors — again an out-of-range index fails, while a `float_list`
shorter than `hex_list` merely stops early). -/

/-- The value of one hexadecimal digit, as accepted by Python `int(_, 16)`:
a decimal digit, or a letter `a`–`f` in either case. -/
def hexDigitVal (c : Char) : Option ℕ :=
  if '0' ≤ c ∧ c ≤ '9' then some (c.toNat - '0'.toNat)
  else if 'a' ≤ c ∧ c ≤ 'f' then some (c.toNat - 'a'.toNat + 10)
  else if 'A' ≤ c ∧ c ≤ 'F' then some (c.toNat - 'A'.toNat + 10)
  else none

def parseHexAux : ℕ → List Char → Option ℕ
  | acc, [] => some acc
  | acc, c :: cs =>
    match hexDigitVal c with
    | some d => parseHexAux (16 * acc + d) cs
    | none => none

/-- Python `int(s, 16)`: fails on the empty string, otherwise folds the
hexadecimal digits most-significant first. -/
def parseHex (cs : List Char) : Option ℕ :=
  if cs.isEmpty then none else parseHexAux 0 cs

/-- Python `str.strip("#")`: remove `#` characters from both ends. -/
def stripHash (s : List Char) : List Char :=
  ((s.dropWhile (· = '#')).reverse.dropWhile (· = '#')).reverse

/-- The chunks `v[i:i+step]` for `i in range(0, len(v), step)`. -/
def readChunks (v : List Char) (step : ℕ) : List (List Char) :=
  (List.range ((v.length + step - 1) / step)).map fun k => (v.drop (k * step)).take step

/-- Parse every chunk as base-16; any malformed chunk fails the whole list. -/
def parseChunks : List (List Char) → Option (List ℕ)
  | [] => some []
  | c :: cs =>
    match parseHex c, parseChunks cs with
    | some n, some r => some (n :: r)
    | _, _ => none

/-- `hex_to_rgb`: strip `#`, cut into `len/3`-sized chunks, parse each chunk
as base-16.  `none` models the Python exception (`ValueError`). -/
def hex_to_rgb (s : List Char) : Option (List ℕ) :=
  let v := stripHash s
  let step := v.length / 3
  if step = 0 then none
  else parseChunks (readChunks v step)

/-- `rgb_to_dec`: divide each component by 256. -/
def rgb_to_dec (value : List ℕ) : List ℚ :=
  value.map fun (v : ℕ) => (v : ℚ) / 256

inductive PyErr where
  | indexError
  | valueError
  deriving DecidableEq

/-- The `segmentdata` dictionary handed to
`matplotlib.colors.LinearSegmentedColormap`: for each channel a list of
`(position, value-left, value-right)` control points. -/
structure Cdict where
  red : List (ℚ × ℚ × ℚ)
  green : List (ℚ × ℚ × ℚ)
  blue : List (ℚ × ℚ × ℚ)
  alpha : List (ℚ × ℚ × ℚ)
  deriving DecidableEq

/-- The list comprehension `[rgb_to_dec(hex_to_rgb(i)) for i in hex_list]`;
a malformed hex string fails the whole construction. -/
def parseAll : List (List Char) → Except PyErr (List (List ℚ))
  | [] => Except.ok []
  | h :: t =>
    match hex_to_rgb h with
    | some comps =>
      match parseAll t with
      | Except.ok r => Except.ok (rgb_to_dec comps :: r)
      | Except.error e => Except.error e
    | none => Except.error PyErr.valueError

/-- The loop `for i, col in enumerate(rgba_list): col.append(alpha_list[i])`:
walks the decoded colors, indexing `alpha_list` in lockstep — running out of
alphas is an `IndexError`, extra alphas are ignored. -/
def appendAlphas : List (List ℚ) → List ℚ → Except PyErr (List (List ℚ))
  | [], _ => Except.ok []
  | c :: rest, a :: as_ =>
    match appendAlphas rest as_ with
    | Except.ok r => Except.ok ((c ++ [a]) :: r)
    | Except.error e => Except.error e
  | _ :: _, [] => Except.error PyErr.indexError

/-- The comprehension
`[[float_list[i], rgba_list[i][num], rgba_list[i][num]] for i in range(len(float_list))]`:
walks `float_list`, indexing the decoded colors in lockstep — running out of
colors (or of components within a color) is an `IndexError`, a `float_list`
shorter than the color list stops early. -/
def buildChannel : List ℚ → List (List ℚ) → ℕ → Except PyErr (List (ℚ × ℚ × ℚ))
  | [], _, _ => Except.ok []
  | _ :: _, [], _ => Except.error PyErr.indexError
  | p :: fl, c :: rgba, num =>
    match getElem? c num with
    | some v =>
      match buildChannel fl rgba num with
      | Except.ok r => Except.ok ((p, v, v) :: r)
      | Except.error e => Except.error e
    | none => Except.error PyErr.indexError

/-- `get_continuous_cmap`: decode the hex colors, append the alphas, and build
the four per-channel control-point lists handed to
`LinearSegmentedColormap`.  The source performs no length validation of its
three inputs. -/
def get_continuous_cmap (hex_list : List (List Char)) (float_list alpha_list : List ℚ) :
    Except PyErr Cdict :=
  match parseAll hex_list with
  | Except.error e => Except.error e
  | Except.ok rgb =>
    match appendAlphas rgb alpha_list with
    | Except.error e => Except.error e
    | Except.ok rgba =>
      match buildChannel float_list rgba 0, buildChannel float_list rgba 1,
            buildChannel float_list rgba 2, buildChannel float_list rgba 3 with
      | Except.ok r, Except.ok g, Except.ok b, Except.ok a => Except.ok ⟨r, g, b, a⟩
      | Except.error e, _, _, _ => Except.error e
      | _, Except.error e, _, _ => Except.error e
      | _, _, Except.error e, _ => Except.error e
      | _, _, _, Except.error e => Except.error e

/-! ### Color-map lookup

`colormaps.py` hands the `Cdict` to `matplotlib.colors.LinearSegmentedColormap`,
whose lookup is not part of this repository. -/

/-- Modelled from the spec: the continuous lookup of
`matplotlib.colors.LinearSegmentedColormap` on one channel's control points
`(position, value-left, value-right)` — between two consecutive control
points the value is interpolated linearly from the right value of the earlier
point to the left value of the later point; outside the covered range the
value is clamped to the nearest end (the `N = 256` quantization of the
floating-point implementation is abstracted away).  `sampleSeg pPrev yPrev
rest t` scans the remaining control points after a point at `pPrev` whose
outgoing value is `yPrev`. -/
def sampleSeg : ℚ → ℚ → List (ℚ × ℚ × ℚ) → ℚ → ℚ
  | _, yPrev, [], _ => yPrev
  | pPrev, yPrev, c :: rest, t =>
    if t ≤ c.1 then yPrev + (t - pPrev) / (c.1 - pPrev) * (c.2.1 - yPrev)
    else sampleSeg c.1 c.2.2 rest t

/-- Modelled from the spec: sample one channel of the color map at parameter
`t` (see `sampleSeg`). -/
def sampleChannel : List (ℚ × ℚ × ℚ) → ℚ → ℚ
  | [], _ => 0
  | c :: rest, t => if t ≤ c.1 then c.2.2 else sampleSeg c.1 c.2.2 rest t

/-! ### Scattered-point interpolation — `scipy.interpolate.griddata(method='linear')`
(`src/utils/cape.py` line 41, `src/utils/displacement.py` lines 34–35)

The scripts call scipy's `griddata`, which is not part of this repository:
the triangulation-based linear interpolation is modelled from the spec. -/

/-- A scattered sample: `(Lon, Lat)` coordinate and field value. -/
structure Pt3 where
  lon : ℚ
  lat : ℚ
  v : ℚ
  deriving DecidableEq

inductive InterpErr where
  | insufficientData
  deriving DecidableEq

/-- Twice the signed area of the triangle `a b c` (the cross product of the
edge vectors): zero exactly when the three points are collinear. -/
def cross2 (a b c : Pt3) : ℚ :=
  (b.lon - a.lon) * (c.lat - a.lat) - (b.lat - a.lat) * (c.lon - a.lon)

/-- All ordered triples of points of a list (repetitions included; a repeated
point always forms a collinear triple). -/
def allTriples (pts : List Pt3) : List (Pt3 × Pt3 × Pt3) :=
  pts.flatMap fun a => pts.flatMap fun b => pts.map fun c => (a, b, c)

/-- Barycentric weights of the target point `q` in the triangle `(a, b, c)`:
`w1 + w2 + w3 = cross2 a b c`. -/
def baryW1 (a b c : Pt3) (q : ℚ × ℚ) : ℚ :=
  (b.lon - q.1) * (c.lat - q.2) - (b.lat - q.2) * (c.lon - q.1)

def baryW2 (a b c : Pt3) (q : ℚ × ℚ) : ℚ :=
  (c.lon - q.1) * (a.lat - q.2) - (c.lat - q.2) * (a.lon - q.1)

def baryW3 (a b c : Pt3) (q : ℚ × ℚ) : ℚ :=
  (a.lon - q.1) * (b.lat - q.2) - (a.lat - q.2) * (b.lon - q.1)

/-- Whether the target point lies inside (or on the boundary of) the
non-degenerate triangle `(a, b, c)`: all barycentric weights share the sign
of the triangle's area.  Degenerate triangles contain nothing. -/
def inTriangle (tr : Pt3 × Pt3 × Pt3) (q : ℚ × ℚ) : Bool :=
  let (a, b, c) := tr
  let d := cross2 a b c
  let w1 := baryW1 a b c q
  let w2 := baryW2 a b c q
  let w3 := baryW3 a b c q
  decide ((0 < d ∧ 0 ≤ w1 ∧ 0 ≤ w2 ∧ 0 ≤ w3) ∨ (d < 0 ∧ w1 ≤ 0 ∧ w2 ≤ 0 ∧ w3 ≤ 0))

/-- Barycentric-weighted linear interpolation of the triangle's vertex
values at the target point. -/
def baryValue (tr : Pt3 × Pt3 × Pt3) (q : ℚ × ℚ) : ℚ :=
  let (a, b, c) := tr
  (baryW1 a b c q * a.v + baryW2 a b c q * b.v + baryW3 a b c q * c.v) / cross2 a b c

/-- Modelled from the spec: build a triangulation over the scattered points —
when every triple of points is collinear the triangulation is undefined and
construction fails (scipy's Qhull error, the spec's `InsufficientDataError`);
otherwise the non-degenerate triangles define the interpolation domain, whose
union is the convex hull of the points. -/
def triangulate (pts : List Pt3) : Except InterpErr (List (Pt3 × Pt3 × Pt3)) :=
  if (allTriples pts).any (fun tr => cross2 tr.1 tr.2.1 tr.2.2 ≠ 0) then
    Except.ok ((allTriples pts).filter fun tr => cross2 tr.1 tr.2.1 tr.2.2 ≠ 0)
  else Except.error InterpErr.insufficientData

/-- Modelled from the spec: the value of the interpolant at one target grid
cell — the barycentric interpolation inside the first triangle containing the
cell's coordinate, and the no-data marker (`Option.none`, scipy's `NaN` fill
value) when no triangle contains it. -/
def griddata_point (tris : List (Pt3 × Pt3 × Pt3)) (q : ℚ × ℚ) : Option ℚ :=
  (tris.find? fun tr => inTriangle tr q).map fun tr => baryValue tr q

/-- Modelled from the spec: `interpolate` for one target cell — triangulate
the scattered points, then evaluate the interpolant. -/
def interpolate (pts : List Pt3) (q : ℚ × ℚ) : Except InterpErr (Option ℚ) :=
  match triangulate pts with
  | Except.ok tris => Except.ok (griddata_point tris q)
  | Except.error e => Except.error e

/-! ## Supporting lemmas -/

theorem mem_merge (a b : List Row3) (r : Row4) :
    r ∈ merge a b ↔
      (⟨r.lon, r.lat, r.v1⟩ : Row3) ∈ a ∧ (⟨r.lon, r.lat, r.v2⟩ : Row3) ∈ b := by
  constructor
  · intro h
    simp only [merge, List.mem_flatMap, List.mem_map, List.mem_filter,
      decide_eq_true_eq] at h
    obtain ⟨ra, hra, rb, ⟨hrb, hlon, hlat⟩, heq⟩ := h
    subst heq
    exact ⟨hra, by rw [← hlon, ← hlat]; exact hrb⟩
  · rintro ⟨h1, h2⟩
    simp only [merge, List.mem_flatMap, List.mem_map, List.mem_filter,
      decide_eq_true_eq]
    exact ⟨⟨r.lon, r.lat, r.v1⟩, h1, ⟨r.lon, r.lat, r.v2⟩, ⟨h2, rfl, rfl⟩, rfl⟩

theorem sampleSeg_skip (l₁ : List (ℚ × ℚ × ℚ)) :
    ∀ (c : ℚ × ℚ × ℚ) (pPrev yPrev : ℚ) (rest : List (ℚ × ℚ × ℚ)) (t : ℚ),
      (∀ x ∈ l₁, x.1 < t) → c.1 < t →
      sampleSeg pPrev yPrev (l₁ ++ c :: rest) t = sampleSeg c.1 c.2.2 rest t := by
  induction l₁ with
  | nil =>
    intro c pPrev yPrev rest t _ hc
    rw [List.nil_append]
    simp only [sampleSeg]
    rw [if_neg (not_le.mpr hc)]
  | cons d l₁ ih =>
    intro c pPrev yPrev rest t hall hc
    have hd : d.1 < t := hall d (List.mem_cons_self d l₁)
    rw [List.cons_append]
    simp only [sampleSeg]
    rw [if_neg (not_le.mpr hd)]
    exact ih c d.1 d.2.2 rest t (fun x hx => hall x (List.mem_cons_of_mem d hx)) hc

theorem sampleChannel_skip (l₁ : List (ℚ × ℚ × ℚ)) (c : ℚ × ℚ × ℚ)
    (rest : List (ℚ × ℚ × ℚ)) (t : ℚ)
    (hall : ∀ x ∈ l₁, x.1 < t) (hc : c.1 < t) :
    sampleChannel (l₁ ++ c :: rest) t = sampleSeg c.1 c.2.2 rest t := by
  cases l₁ with
  | nil =>
    rw [List.nil_append]
    simp only [sampleChannel]
    rw [if_neg (not_le.mpr hc)]
  | cons d l₁ =>
    have hd : d.1 < t := hall d (List.mem_cons_self d l₁)
    rw [List.cons_append]
    simp only [sampleChannel]
    rw [if_neg (not_le.mpr hd)]
    exact sampleSeg_skip l₁ c d.1 d.2.2 rest t
      (fun x hx => hall x (List.mem_cons_of_mem d hx)) hc

theorem sampleChannel_eval_seg (l₁ l₂ : List (ℚ × ℚ × ℚ)) (a b : ℚ × ℚ × ℚ) (t : ℚ)
    (hs : List.Pairwise (fun x y => x.1 < y.1) (l₁ ++ a :: b :: l₂))
    (hEq : ∀ x ∈ l₁ ++ a :: b :: l₂, x.2.1 = x.2.2)
    (h1 : a.1 ≤ t) (h2 : t ≤ b.1) :
    sampleChannel (l₁ ++ a :: b :: l₂) t =
      a.2.2 + (t - a.1) / (b.1 - a.1) * (b.2.1 - a.2.2) := by
  obtain ⟨hpw1, hpw2, hrel⟩ := List.pairwise_append.mp hs
  have hl₁a : ∀ x ∈ l₁, x.1 < a.1 :=
    fun x hx => hrel x hx a (List.mem_cons_self a (b :: l₂))
  rcases lt_or_eq_of_le h1 with hlt | heq
  · have hallt : ∀ x ∈ l₁, x.1 < t := fun x hx => lt_trans (hl₁a x hx) hlt
    rw [sampleChannel_skip l₁ a (b :: l₂) t hallt hlt]
    simp only [sampleSeg]
    rw [if_pos h2]
  · subst heq
    have hrhs : a.2.2 + (a.1 - a.1) / (b.1 - a.1) * (b.2.1 - a.2.2) = a.2.2 := by
      rw [sub_self, zero_div, zero_mul, add_zero]
    rw [hrhs]
    rcases List.eq_nil_or_concat l₁ with rfl | ⟨L, c, rfl⟩
    · rw [List.nil_append]
      simp only [sampleChannel]
      rw [if_pos (le_refl a.1)]
    · have hca : c.1 < a.1 := hl₁a c (by simp [List.concat_eq_append])
      have hL : ∀ x ∈ L, x.1 < a.1 :=
        fun x hx => hl₁a x (by simp [List.concat_eq_append, hx])
      have hre : L.concat c ++ a :: b :: l₂ = L ++ c :: (a :: b :: l₂) := by
        simp [List.concat_eq_append]
      rw [hre, sampleChannel_skip L c (a :: b :: l₂) a.1 hL hca]
      simp only [sampleSeg]
      rw [if_pos (le_refl a.1)]
      have ha' : a.2.1 = a.2.2 := hEq a (by simp [List.concat_eq_append])
      have hne : a.1 - c.1 ≠ 0 := sub_ne_zero.mpr (ne_of_gt hca)
      rw [div_self hne, ha']
      ring

theorem interp_bounds (p q va vb t : ℚ) (hpq : p < q) (h1 : p ≤ t) (h2 : t ≤ q) :
    min va vb ≤ va + (t - p) / (q - p) * (vb - va) ∧
    va + (t - p) / (q - p) * (vb - va) ≤ max va vb := by
  have hq : (0 : ℚ) < q - p := by linarith
  have hr0 : 0 ≤ (t - p) / (q - p) := div_nonneg (by linarith) hq.le
  have hr1 : (t - p) / (q - p) ≤ 1 := (div_le_one hq).mpr (by linarith)
  rcases le_total va vb with hv | hv
  · rw [min_eq_left hv, max_eq_right hv]
    constructor <;> nlinarith
  · rw [min_eq_right hv, max_eq_left hv]
    constructor <;> nlinarith

theorem interp_mono (p q va vb t t' : ℚ) (hpq : p < q) (htt : t ≤ t') :
    (va ≤ vb → va + (t - p) / (q - p) * (vb - va) ≤
      va + (t' - p) / (q - p) * (vb - va)) ∧
    (vb ≤ va → va + (t' - p) / (q - p) * (vb - va) ≤
      va + (t - p) / (q - p) * (vb - va)) := by
  have hq : (0 : ℚ) < q - p := by linarith
  have hr : (t - p) / (q - p) ≤ (t' - p) / (q - p) :=
    (div_le_div_iff_of_pos_right hq).mpr (by linarith)
  constructor
  · intro hv
    have := mul_le_mul_of_nonneg_right hr (sub_nonneg.mpr hv)
    linarith
  · intro hv
    have := mul_le_mul_of_nonpos_right hr (by linarith : vb - va ≤ 0)
    linarith

theorem hexDigitVal_lt {c : Char} {d : ℕ} (h : hexDigitVal c = some d) : d < 16 := by
  unfold hexDigitVal at h
  split_ifs at h with h1 h2 h3
  · obtain rfl := Option.some.inj h
    have hle : c.toNat ≤ 57 := by
      have := UInt32.le_def.mp (Char.le_def.mp h1.2)
      simpa [Char.toNat] using this
    have hz : Char.toNat '0' = 48 := rfl
    omega
  · obtain rfl := Option.some.inj h
    have hle : c.toNat ≤ 102 := by
      have := UInt32.le_def.mp (Char.le_def.mp h2.2)
      simpa [Char.toNat] using this
    have hz : Char.toNat 'a' = 97 := rfl
    omega
  · obtain rfl := Option.some.inj h
    have hle : c.toNat ≤ 70 := by
      have := UInt32.le_def.mp (Char.le_def.mp h3.2)
      simpa [Char.toNat] using this
    have hz : Char.toNat 'A' = 65 := rfl
    omega

theorem parseHexAux_lt :
    ∀ (cs : List Char) (acc n : ℕ), parseHexAux acc cs = some n →
      n < (acc + 1) * 16 ^ cs.length := by
  intro cs
  induction cs with
  | nil =>
    intro acc n h
    simp only [parseHexAux, Option.some.injEq] at h
    subst h
    simp [Nat.lt_succ_self]
  | cons c cs ih =>
    intro acc n h
    rw [parseHexAux] at h
    cases hd : hexDigitVal c with
    | none => rw [hd] at h; cases h
    | some d =>
      rw [hd] at h
      have hn := ih (16 * acc + d) n h
      have hdlt := hexDigitVal_lt hd
      calc n < (16 * acc + d + 1) * 16 ^ cs.length := hn
        _ ≤ ((acc + 1) * 16) * 16 ^ cs.length :=
          Nat.mul_le_mul_right _ (by omega)
        _ = (acc + 1) * 16 ^ (c :: cs).length := by
          rw [List.length_cons, pow_succ]; ring

theorem parseHex_lt {cs : List Char} {n : ℕ} (h : parseHex cs = some n) :
    n < 16 ^ cs.length := by
  unfold parseHex at h
  split at h
  · cases h
  · simpa using parseHexAux_lt cs 0 n h

theorem parseChunks_mem :
    ∀ {cs : List (List Char)} {l : List ℕ}, parseChunks cs = some l →
      ∀ n ∈ l, ∃ c ∈ cs, parseHex c = some n := by
  intro cs
  induction cs with
  | nil =>
    intro l h n hn
    simp only [parseChunks, Option.some.injEq] at h
    subst h
    simp at hn
  | cons c cs ih =>
    intro l h n hn
    rw [parseChunks] at h
    cases hc : parseHex c with
    | none => rw [hc] at h; cases h
    | some m =>
      rw [hc] at h
      cases hr : parseChunks cs with
      | none => rw [hr] at h; cases h
      | some r =>
        rw [hr] at h
        simp only [Option.some.injEq] at h
        subst h
        rcases List.mem_cons.mp hn with rfl | hn'
        · exact ⟨c, List.mem_cons_self c cs, hc⟩
        · obtain ⟨c', hc', hp⟩ := ih hr n hn'
          exact ⟨c', List.mem_cons_of_mem c hc', hp⟩

theorem appendAlphas_error_of_short (rgb : List (List ℚ)) :
    ∀ al : List ℚ, al.length < rgb.length →
      appendAlphas rgb al = Except.error PyErr.indexError := by
  induction rgb with
  | nil => intro al h; simp at h
  | cons c rest ih =>
    intro al h
    match al with
    | [] => rfl
    | a :: as_ =>
      have : as_.length < rest.length := by simpa using h
      simp [appendAlphas, ih as_ this]

theorem buildChannel_error_of_short (fl : List ℚ) :
    ∀ (rgba : List (List ℚ)) (num : ℕ), rgba.length < fl.length →
      buildChannel fl rgba num = Except.error PyErr.indexError := by
  induction fl with
  | nil => intro rgba num h; simp at h
  | cons p fl ih =>
    intro rgba num h
    match rgba with
    | [] => rfl
    | c :: rgba =>
      have : rgba.length < fl.length := by simpa using h
      cases hc : getElem? c num with
      | none => simp [buildChannel, hc]
      | some v => simp [buildChannel, hc, ih rgba num this]

/-! ## Claims about the radar decoder -/

/-- **C1** — For every radar product with bit depth `d`, declared bounds
`valueMin`/`valueMax` and raw sample `r`, the value decoded by
`get_radar_data` equals `valueMin + r * (valueMax - valueMin) / 2^d`; in
particular for `valueMin = 0`, `valueMax = 65`, `d = 8`, `r = 128` the
decoded value is exactly `32.5`. -/
theorem C1_radar_decode_formula :
    (∀ (mn mx : ℚ) (dep : ℕ) (raw : List ℚ),
        get_radar_data ⟨some mn, some mx, some dep, some raw⟩ =
          Except.ok (raw.map (decode_cell mn mx dep))) ∧
    (∀ (mn mx : ℚ) (dep : ℕ) (r : ℚ),
        decode_cell mn mx dep r = mn + r * (mx - mn) / 2 ^ dep) ∧
    decode_cell 0 65 8 128 = 65 / 2 := by
  refine ⟨fun mn mx dep raw => rfl, fun mn mx dep r => ?_, by norm_num [decode_cell]⟩
  rw [decode_cell]; ring

/-- **C10** — For every radar product with `valueMax > valueMin` and every
raw sample `r` in `[0, 2^bitDepth)`, the decoded value lies in
`[valueMin, valueMax)`: raw `0` decodes exactly to `valueMin`, the declared
`valueMax` is never attained, and the largest reachable decoded value is
`valueMax - (valueMax - valueMin) / 2^bitDepth`, attained at raw
`2^bitDepth - 1`. -/
theorem C10_decoded_range (mn mx : ℚ) (dep : ℕ) (r : ℕ)
    (hlt : mn < mx) (hr : r < 2 ^ dep) :
    mn ≤ decode_cell mn mx dep r ∧
    decode_cell mn mx dep r ≤ mx - (mx - mn) / 2 ^ dep ∧
    decode_cell mn mx dep r < mx ∧
    decode_cell mn mx dep 0 = mn ∧
    decode_cell mn mx dep ((2 ^ dep - 1 : ℕ)) = mx - (mx - mn) / 2 ^ dep := by
  have hpow : (0 : ℚ) < 2 ^ dep := by positivity
  have hs : (0 : ℚ) < (mx - mn) / 2 ^ dep := div_pos (by linarith) hpow
  have hcancel : (2 : ℚ) ^ dep * ((mx - mn) / 2 ^ dep) = mx - mn := by field_simp
  have hrq : (r : ℚ) ≤ 2 ^ dep - 1 := by
    have : (r : ℚ) + 1 ≤ 2 ^ dep := by exact_mod_cast Nat.succ_le_of_lt hr
    linarith
  have hub : decode_cell mn mx dep r ≤ mx - (mx - mn) / 2 ^ dep := by
    rw [decode_cell]
    have := mul_le_mul_of_nonneg_right hrq hs.le
    nlinarith [hcancel]
  refine ⟨?_, hub, by linarith, by simp [decode_cell], ?_⟩
  · rw [decode_cell]
    have : (0 : ℚ) ≤ (r : ℚ) * ((mx - mn) / 2 ^ dep) :=
      mul_nonneg (Nat.cast_nonneg r) hs.le
    linarith
  · have hone : 1 ≤ 2 ^ dep := Nat.one_le_two_pow
    rw [decode_cell]
    push_cast [Nat.cast_sub hone]
    field_simp
    ring

/-- Witness for `C10_decoded_range` at `valueMin = 0`, `valueMax = 65`,
`bitDepth = 8`, raw `128`. -/
theorem C10_decoded_range_witness :
    ((0 : ℚ) < 65 ∧ 128 < 2 ^ 8) ∧
    ((0 : ℚ) ≤ decode_cell 0 65 8 ((128 : ℕ) : ℚ) ∧
     decode_cell 0 65 8 ((128 : ℕ) : ℚ) ≤ 65 - (65 - 0) / 2 ^ 8 ∧
     decode_cell 0 65 8 ((128 : ℕ) : ℚ) < 65 ∧
     decode_cell 0 65 8 0 = 0 ∧
     decode_cell 0 65 8 ((2 ^ 8 - 1 : ℕ)) = 65 - (65 - 0) / 2 ^ 8) :=
  ⟨⟨by norm_num, by norm_num⟩, C10_decoded_range 0 65 8 128 (by norm_num) (by norm_num)⟩

/-- **C8, counterexample** — the claim "decode fails with `FormatError` when
some raw sample `r` satisfies `r ≥ 2^bitDepth`" is false: with
`valueMin = 0`, `valueMax = 65`, `bitDepth = 8` and raw sample `300 ≥ 2^8`,
`get_radar_data` returns a decoded product (of value `4875/64 > 65`) instead
of failing. -/
theorem C8_counterexample :
    (2 : ℚ) ^ 8 ≤ 300 ∧
    get_radar_data ⟨some 0, some 65, some 8, some [300]⟩ = Except.ok [4875 / 64] ∧
    (65 : ℚ) < 4875 / 64 := by
  refine ⟨by norm_num, ?_, by norm_num⟩
  norm_num [get_radar_data, decode_cell]

/-- **C8, amended** — `get_radar_data` fails (with a key-lookup error — the
code defines no dedicated `FormatError`) when any of the four required fields
is absent, but raw samples are never validated against the bit depth: with
all fields present it always returns the decoded product, and a raw sample
`r ≥ 2^bitDepth` decodes to a value at or above the declared `valueMax`. -/
theorem C8_amended :
    (∀ d : RainbowDict,
        d.datamin? = none ∨ d.datamax? = none ∨ d.datadepth? = none ∨ d.rawdata? = none →
        get_radar_data d = Except.error RadarErr.keyError) ∧
    (∀ (mn mx : ℚ) (dep : ℕ) (raw : List ℚ),
        get_radar_data ⟨some mn, some mx, some dep, some raw⟩ =
          Except.ok (raw.map (decode_cell mn mx dep))) ∧
    (∀ (mn mx : ℚ) (dep : ℕ) (r : ℚ),
        mn < mx → (2 : ℚ) ^ dep ≤ r → mx ≤ decode_cell mn mx dep r) := by
  refine ⟨?_, fun mn mx dep raw => rfl, ?_⟩
  · rintro ⟨f1, f2, f3, f4⟩ h
    rcases f1 with _ | v1 <;> rcases f2 with _ | v2 <;> rcases f3 with _ | v3 <;>
      rcases f4 with _ | v4 <;> first | rfl | simp_all
  · intro mn mx dep r h1 h2
    have hpow : (0 : ℚ) < 2 ^ dep := by positivity
    have hs : (0 : ℚ) < (mx - mn) / 2 ^ dep := div_pos (by linarith) hpow
    have hcancel : (2 : ℚ) ^ dep * ((mx - mn) / 2 ^ dep) = mx - mn := by field_simp
    have := mul_le_mul_of_nonneg_right h2 hs.le
    rw [decode_cell]
    nlinarith [hcancel]

/-- Witness for `C8_amended`: a container missing `@min` fails, and raw
sample `300 ≥ 2^8` decodes to a value at or above `valueMax = 65`. -/
theorem C8_amended_witness :
    get_radar_data ⟨none, some 65, some 8, some [1]⟩ = Except.error RadarErr.keyError ∧
    ((0 : ℚ) < 65 ∧ (2 : ℚ) ^ 8 ≤ 300 ∧ (65 : ℚ) ≤ decode_cell 0 65 8 300) :=
  ⟨C8_amended.1 ⟨none, some 65, some 8, some [1]⟩ (Or.inl rfl),
    by norm_num, by norm_num,
    C8_amended.2.2 0 65 8 300 (by norm_num) (by norm_num)⟩

/-! ## Claims about the relative-error channel -/

/-- **C2** — For every row of the merged point set: if the reference channel
`CAPE1D` is `0` and the difference is `0`, the derived relative error is `0`;
if the reference is `0` and the difference non-zero, it equals the finite cap
`100` (never an infinity or NaN); otherwise it equals
`|difference| / reference` on the percentage scale. -/
theorem C2_rel_err_policy (cape1d cape3d : ℚ) :
    rel_err cape1d cape3d =
      if cape1d = 0 then
        if cape3d - cape1d = 0 then PandasVal.num 0 else PandasVal.num 100
      else PandasVal.num (|cape3d - cape1d| / cape1d * 100) := by
  rcases eq_or_ne cape1d 0 with h1 | h1
  · subst h1
    rcases eq_or_ne cape3d 0 with h2 | h2
    · subst h2
      simp [rel_err, pandasDiv, pandasMul100, fillna0, replaceInf100]
    · have habs : 0 < |cape3d| := abs_pos.mpr h2
      simp [rel_err, pandasDiv, pandasMul100, fillna0, replaceInf100, h2, sub_zero,
        abs_eq_zero, habs]
  · simp [rel_err, pandasDiv, pandasMul100, fillna0, replaceInf100, h1]

/-! ## Claims about the coordinate merge -/

/-- **C4, counterexample** — on the spec's two-point example
(`(1,1) → (A=10, B=12)`, `(2,2) → (A=20, B=18)`), the merge and the
difference channel behave as claimed, but the relative-error channel at
`(2,2)` is `|−2|/20·100 = 10.0` (the reference is the first channel), not
`11.11 ± 0.01` as the claim states. -/
theorem C4_counterexample :
    merge [⟨1, 1, 10⟩, ⟨2, 2, 20⟩] [⟨1, 1, 12⟩, ⟨2, 2, 18⟩] =
      [⟨1, 1, 10, 12⟩, ⟨2, 2, 20, 18⟩] ∧
    (merge [⟨1, 1, 10⟩, ⟨2, 2, 20⟩] [⟨1, 1, 12⟩, ⟨2, 2, 18⟩]).map
        (fun r => r.v2 - r.v1) = [2, -2] ∧
    (merge [⟨1, 1, 10⟩, ⟨2, 2, 20⟩] [⟨1, 1, 12⟩, ⟨2, 2, 18⟩]).map
        (fun r => rel_err r.v1 r.v2) = [PandasVal.num 20, PandasVal.num 10] ∧
    ¬ |(10 : ℚ) - 1111 / 100| ≤ 1 / 100 := by
  have hm : merge [(⟨1, 1, 10⟩ : Row3), ⟨2, 2, 20⟩] [⟨1, 1, 12⟩, ⟨2, 2, 18⟩] =
      [⟨1, 1, 10, 12⟩, ⟨2, 2, 20, 18⟩] := by
    norm_num [merge, List.filter]
  refine ⟨hm, ?_, ?_, by rw [abs_of_neg] <;> norm_num⟩
  · rw [hm]; norm_num
  · rw [hm]
    norm_num [rel_err, pandasDiv, pandasMul100, fillna0, replaceInf100, abs_of_nonneg,
      abs_of_nonpos]

/-- **C4, amended** — `merge` is an inner join on exact
`(longitude, latitude)` equality: a row belongs to the result exactly when
both inputs contain its coordinate (each result row carrying both value
channels; unmatched samples are dropped).  On the two-point example the
difference channel is `2` and `-2` and the relative-error channel is `20.0`
and `10.0` (the reference being the first input's channel). -/
theorem C4_amended :
    (∀ (a b : List Row3) (r : Row4),
        r ∈ merge a b ↔
          (⟨r.lon, r.lat, r.v1⟩ : Row3) ∈ a ∧ (⟨r.lon, r.lat, r.v2⟩ : Row3) ∈ b) ∧
    merge [⟨1, 1, 10⟩, ⟨2, 2, 20⟩] [⟨1, 1, 12⟩, ⟨2, 2, 18⟩] =
      [⟨1, 1, 10, 12⟩, ⟨2, 2, 20, 18⟩] ∧
    (merge [⟨1, 1, 10⟩, ⟨2, 2, 20⟩] [⟨1, 1, 12⟩, ⟨2, 2, 18⟩]).map
        (fun r => r.v2 - r.v1) = [2, -2] ∧
    (merge [⟨1, 1, 10⟩, ⟨2, 2, 20⟩] [⟨1, 1, 12⟩, ⟨2, 2, 18⟩]).map
        (fun r => rel_err r.v1 r.v2) = [PandasVal.num 20, PandasVal.num 10] := by
  have hm : merge [(⟨1, 1, 10⟩ : Row3), ⟨2, 2, 20⟩] [⟨1, 1, 12⟩, ⟨2, 2, 18⟩] =
      [⟨1, 1, 10, 12⟩, ⟨2, 2, 20, 18⟩] := by
    norm_num [merge, List.filter]
  refine ⟨mem_merge, hm, ?_, ?_⟩
  · rw [hm]; norm_num
  · rw [hm]
    norm_num [rel_err, pandasDiv, pandasMul100, fillna0, replaceInf100, abs_of_nonneg,
      abs_of_nonpos]

/-! ## Claims about color-map construction -/

/-- **C3, counterexample** — the claim "an anchor spec whose hex, position
and alpha lists do not all have equal length makes `get_continuous_cmap`
fail with `ConfigError`, never silently truncating" is false: with three hex
colors, two positions and three alphas the construction succeeds and silently
builds the map from only the first two anchors. -/
theorem C3_counterexample :
    ¬ ([['#', 'f', 'f', 'f', 'f', 'f', 'f'], ['#', '0', '0', '0', '0', '0', '0'],
          ['#', 'f', 'f', '0', '0', '0', '0']].length = [(0 : ℚ), 1].length ∧
        [(0 : ℚ), 1].length = [(1 : ℚ), 1, 1].length) ∧
    get_continuous_cmap
        [['#', 'f', 'f', 'f', 'f', 'f', 'f'], ['#', '0', '0', '0', '0', '0', '0'],
          ['#', 'f', 'f', '0', '0', '0', '0']] [0, 1] [1, 1, 1] =
      Except.ok
        ⟨[(0, 255 / 256, 255 / 256), (1, 0, 0)],
         [(0, 255 / 256, 255 / 256), (1, 0, 0)],
         [(0, 255 / 256, 255 / 256), (1, 0, 0)],
         [(0, 1, 1), (1, 1, 1)]⟩ := by
  have h1 : hex_to_rgb ['#', 'f', 'f', 'f', 'f', 'f', 'f'] = some [255, 255, 255] := by
    decide
  have h2 : hex_to_rgb ['#', '0', '0', '0', '0', '0', '0'] = some [0, 0, 0] := by decide
  have h3 : hex_to_rgb ['#', 'f', 'f', '0', '0', '0', '0'] = some [255, 0, 0] := by decide
  refine ⟨by norm_num, ?_⟩
  norm_num [get_continuous_cmap, parseAll, h1, h2, h3, appendAlphas, buildChannel,
    rgb_to_dec]

/-- **C3, amended** — `get_continuous_cmap` performs no length validation (no
`ConfigError` exists): an alpha list shorter than the (successfully decoded)
hex list fails with an `IndexError`; a position list longer than the decoded
colors fails with an `IndexError`; and a position list shorter than the hex
list (with alphas covering the colors) silently builds the map from only the
first `len(float_list)` anchors. -/
theorem C3_amended :
    (∀ (hex_list : List (List Char)) (float_list alpha_list : List ℚ)
        (rgb : List (List ℚ)),
        parseAll hex_list = Except.ok rgb → alpha_list.length < rgb.length →
        get_continuous_cmap hex_list float_list alpha_list =
          Except.error PyErr.indexError) ∧
    (∀ (hex_list : List (List Char)) (float_list alpha_list : List ℚ)
        (rgb rgba : List (List ℚ)),
        parseAll hex_list = Except.ok rgb →
        appendAlphas rgb alpha_list = Except.ok rgba →
        rgba.length < float_list.length →
        get_continuous_cmap hex_list float_list alpha_list =
          Except.error PyErr.indexError) ∧
    get_continuous_cmap
        [['#', 'f', 'f', 'f', 'f', 'f', 'f'], ['#', '0', '0', '0', '0', '0', '0'],
          ['#', 'f', 'f', '0', '0', '0', '0']] [0, 1] [1, 1, 1] =
      Except.ok
        ⟨[(0, 255 / 256, 255 / 256), (1, 0, 0)],
         [(0, 255 / 256, 255 / 256), (1, 0, 0)],
         [(0, 255 / 256, 255 / 256), (1, 0, 0)],
         [(0, 1, 1), (1, 1, 1)]⟩ := by
  refine ⟨?_, ?_, ?_⟩
  · intro hex_list float_list alpha_list rgb hp hlen
    simp [get_continuous_cmap, hp, appendAlphas_error_of_short rgb alpha_list hlen]
  · intro hex_list float_list alpha_list rgb rgba hp ha hlen
    simp [get_continuous_cmap, hp, ha,
      buildChannel_error_of_short float_list rgba 0 hlen]
  · have h1 : hex_to_rgb ['#', 'f', 'f', 'f', 'f', 'f', 'f'] = some [255, 255, 255] := by
      decide
    have h2 : hex_to_rgb ['#', '0', '0', '0', '0', '0', '0'] = some [0, 0, 0] := by decide
    have h3 : hex_to_rgb ['#', 'f', 'f', '0', '0', '0', '0'] = some [255, 0, 0] := by
      decide
    norm_num [get_continuous_cmap, parseAll, h1, h2, h3, appendAlphas, buildChannel,
      rgb_to_dec]

/-- Witness for `C3_amended`: a single hex color with an empty alpha list
fails with an `IndexError`. -/
theorem C3_amended_witness :
    parseAll [['#', 'f', 'f', 'f', 'f', 'f', 'f']] =
      Except.ok [[255 / 256, 255 / 256, 255 / 256]] ∧
    ([] : List ℚ).length < [[(255 : ℚ) / 256, 255 / 256, 255 / 256]].length ∧
    get_continuous_cmap [['#', 'f', 'f', 'f', 'f', 'f', 'f']] [0, 1] [] =
      Except.error PyErr.indexError := by
  have h1 : hex_to_rgb ['#', 'f', 'f', 'f', 'f', 'f', 'f'] = some [255, 255, 255] := by
    decide
  have hp : parseAll [['#', 'f', 'f', 'f', 'f', 'f', 'f']] =
      Except.ok [[255 / 256, 255 / 256, 255 / 256]] := by
    norm_num [parseAll, h1, rgb_to_dec]
  exact ⟨hp, by norm_num,
    C3_amended.1 [['#', 'f', 'f', 'f', 'f', 'f', 'f']] [0, 1] [] _ hp (by norm_num)⟩

/-- **C6** — For every well-formed color map channel built from an anchor
list (control points with strictly increasing positions, first at `0`, last
at `1`, left and right values coinciding as `get_continuous_cmap` always
builds them), sampling at `t = 0` returns exactly the first anchor's value,
sampling at `t = 1` returns exactly the last anchor's value, and between any
two adjacent anchors the sample is a monotone linear interpolation of the two
bracketing anchor values with no overshoot. -/
theorem C6_sample_contract (l : List (ℚ × ℚ × ℚ)) (f e : ℚ × ℚ × ℚ)
    (hs : List.Pairwise (fun x y => x.1 < y.1) l)
    (hEq : ∀ x ∈ l, x.2.1 = x.2.2)
    (hh : l.head? = some f) (hf : f.1 = 0)
    (hl : l.getLast? = some e) (he : e.1 = 1) :
    sampleChannel l 0 = f.2.2 ∧
    sampleChannel l 1 = e.2.1 ∧
    ∀ l₁ l₂ a b, l = l₁ ++ a :: b :: l₂ →
      (∀ t, a.1 ≤ t → t ≤ b.1 →
        min a.2.2 b.2.1 ≤ sampleChannel l t ∧ sampleChannel l t ≤ max a.2.2 b.2.1) ∧
      ∀ t t', a.1 ≤ t → t ≤ t' → t' ≤ b.1 →
        (a.2.2 ≤ b.2.1 → sampleChannel l t ≤ sampleChannel l t') ∧
        (b.2.1 ≤ a.2.2 → sampleChannel l t' ≤ sampleChannel l t) := by
  refine ⟨?_, ?_, ?_⟩
  · cases l with
    | nil => cases hh
    | cons c rest =>
      have hcf : c = f := by simpa using hh
      subst hcf
      simp only [sampleChannel]
      rw [if_pos (le_of_eq hf.symm)]
  · obtain ⟨l'', hdec⟩ := List.getLast?_eq_some_iff.mp hl
    subst hdec
    rcases List.eq_nil_or_concat l'' with rfl | ⟨L, c, rfl⟩
    · rw [List.nil_append]
      have : f = e := by simpa using hh.symm
      subst this
      rw [hf] at he
      norm_num at he
    · have hre : L.concat c ++ [e] = L ++ c :: e :: [] := by
        simp [List.concat_eq_append]
      rw [hre] at hs hEq ⊢
      obtain ⟨hpw1, hpw2, hrel⟩ := List.pairwise_append.mp hs
      have hce : c.1 < e.1 := (List.pairwise_cons.mp hpw2).1 e (List.mem_cons_self e [])
      have hc1 : c.1 < 1 := by rw [he] at hce; exact hce
      rw [sampleChannel_eval_seg L [] c e 1 hs hEq hc1.le (le_of_eq he.symm), he]
      have hne : (1 : ℚ) - c.1 ≠ 0 := sub_ne_zero.mpr (ne_of_gt hc1)
      rw [div_self hne]
      ring
  · rintro l₁ l₂ a b rfl
    obtain ⟨hpw1, hpw2, hrel⟩ := List.pairwise_append.mp hs
    have hab : a.1 < b.1 := (List.pairwise_cons.mp hpw2).1 b (List.mem_cons_self b l₂)
    constructor
    · intro t h1 h2
      rw [sampleChannel_eval_seg l₁ l₂ a b t hs hEq h1 h2]
      exact interp_bounds a.1 b.1 a.2.2 b.2.1 t hab h1 h2
    · intro t t' h1 htt h2
      rw [sampleChannel_eval_seg l₁ l₂ a b t hs hEq h1 (le_trans htt h2),
        sampleChannel_eval_seg l₁ l₂ a b t' hs hEq (le_trans h1 htt) h2]
      exact interp_mono a.1 b.1 a.2.2 b.2.1 t t' hab htt

/-- Witness for `C6_sample_contract` on the two-anchor channel
`[(0, 2, 2), (1, 5, 5)]`. -/
theorem C6_sample_contract_witness :
    (List.Pairwise (fun x y => x.1 < y.1) [((0 : ℚ), (2 : ℚ), (2 : ℚ)), (1, 5, 5)] ∧
     (∀ x ∈ [((0 : ℚ), (2 : ℚ), (2 : ℚ)), (1, 5, 5)], x.2.1 = x.2.2) ∧
     [((0 : ℚ), (2 : ℚ), (2 : ℚ)), (1, 5, 5)].head? = some (0, 2, 2) ∧
     [((0 : ℚ), (2 : ℚ), (2 : ℚ)), (1, 5, 5)].getLast? = some (1, 5, 5)) ∧
    (sampleChannel [((0 : ℚ), (2 : ℚ), (2 : ℚ)), (1, 5, 5)] 0 = 2 ∧
     sampleChannel [((0 : ℚ), (2 : ℚ), (2 : ℚ)), (1, 5, 5)] 1 = 5 ∧
     ∀ l₁ l₂ a b, [((0 : ℚ), (2 : ℚ), (2 : ℚ)), (1, 5, 5)] = l₁ ++ a :: b :: l₂ →
       (∀ t, a.1 ≤ t → t ≤ b.1 →
         min a.2.2 b.2.1 ≤ sampleChannel [((0 : ℚ), (2 : ℚ), (2 : ℚ)), (1, 5, 5)] t ∧
         sampleChannel [((0 : ℚ), (2 : ℚ), (2 : ℚ)), (1, 5, 5)] t ≤ max a.2.2 b.2.1) ∧
       ∀ t t', a.1 ≤ t → t ≤ t' → t' ≤ b.1 →
         (a.2.2 ≤ b.2.1 →
           sampleChannel [((0 : ℚ), (2 : ℚ), (2 : ℚ)), (1, 5, 5)] t ≤
             sampleChannel [((0 : ℚ), (2 : ℚ), (2 : ℚ)), (1, 5, 5)] t') ∧
         (b.2.1 ≤ a.2.2 →
           sampleChannel [((0 : ℚ), (2 : ℚ), (2 : ℚ)), (1, 5, 5)] t' ≤
             sampleChannel [((0 : ℚ), (2 : ℚ), (2 : ℚ)), (1, 5, 5)] t)) := by
  have h1 : List.Pairwise (fun x y => x.1 < y.1)
      [((0 : ℚ), (2 : ℚ), (2 : ℚ)), (1, 5, 5)] := by decide
  have h2 : ∀ x ∈ [((0 : ℚ), (2 : ℚ), (2 : ℚ)), (1, 5, 5)], x.2.1 = x.2.2 := by decide
  exact ⟨⟨h1, h2, rfl, rfl⟩,
    C6_sample_contract [((0 : ℚ), (2 : ℚ), (2 : ℚ)), (1, 5, 5)] (0, 2, 2) (1, 5, 5)
      h1 h2 rfl rfl rfl rfl⟩

/-- **C9** — every hex channel byte `v` is converted to the decimal value
`v / 256` (not `v / 255`), so every stored anchor color component lies in
`[0, 255/256]`; a full-intensity channel such as `ff` in `#ffffff` yields
`255/256`, never exactly `1`. -/
theorem C9_hex_byte_scale (s : List Char) (l : List ℕ)
    (h6 : (stripHash s).length = 6) (hp : hex_to_rgb s = some l) :
    (∀ n ∈ l, n < 256) ∧
    rgb_to_dec l = l.map (fun (n : ℕ) => (n : ℚ) / 256) ∧
    (∀ x ∈ rgb_to_dec l, 0 ≤ x ∧ x ≤ 255 / 256) ∧
    hex_to_rgb ['#', 'f', 'f', 'f', 'f', 'f', 'f'] = some [255, 255, 255] ∧
    rgb_to_dec [255, 255, 255] = [255 / 256, 255 / 256, 255 / 256] ∧
    (255 / 256 : ℚ) < 1 := by
  simp only [hex_to_rgb] at hp
  rw [h6] at hp
  norm_num at hp
  have hch : readChunks (stripHash s) 2 =
      [(stripHash s).take 2, ((stripHash s).drop 2).take 2,
        ((stripHash s).drop 4).take 2] := by
    simp only [readChunks, h6]
    rfl
  rw [hch] at hp
  have hbound : ∀ n ∈ l, n < 256 := by
    intro n hn
    obtain ⟨c, hc, hpc⟩ := parseChunks_mem hp n hn
    have hlen : c.length = 2 := by
      simp only [List.mem_cons, List.not_mem_nil, or_false] at hc
      rcases hc with rfl | rfl | rfl <;>
        simp [List.length_take, List.length_drop, h6]
    have := parseHex_lt hpc
    rw [hlen] at this
    simpa using this
  refine ⟨hbound, rfl, ?_, by decide, by norm_num [rgb_to_dec], by norm_num⟩
  intro x hx
  rw [rgb_to_dec] at hx
  obtain ⟨n, hn, rfl⟩ := List.mem_map.mp hx
  have hle : (n : ℚ) ≤ 255 := by
    exact_mod_cast Nat.lt_succ_iff.mp (hbound n hn)
  constructor
  · positivity
  · gcongr

/-- Witness for `C9_hex_byte_scale` at the hex string `#ffffff`. -/
theorem C9_hex_byte_scale_witness :
    (stripHash ['#', 'f', 'f', 'f', 'f', 'f', 'f']).length = 6 ∧
    hex_to_rgb ['#', 'f', 'f', 'f', 'f', 'f', 'f'] = some [255, 255, 255] ∧
    ((∀ n ∈ [255, 255, 255], n < 256) ∧
     rgb_to_dec [255, 255, 255] = [255, 255, 255].map (fun (n : ℕ) => (n : ℚ) / 256) ∧
     (∀ x ∈ rgb_to_dec [255, 255, 255], 0 ≤ x ∧ x ≤ 255 / 256) ∧
     hex_to_rgb ['#', 'f', 'f', 'f', 'f', 'f', 'f'] = some [255, 255, 255] ∧
     rgb_to_dec [255, 255, 255] = [255 / 256, 255 / 256, 255 / 256] ∧
     (255 / 256 : ℚ) < 1) := by
  have h6 : (stripHash ['#', 'f', 'f', 'f', 'f', 'f', 'f']).length = 6 := by decide
  have hp : hex_to_rgb ['#', 'f', 'f', 'f', 'f', 'f', 'f'] = some [255, 255, 255] := by
    decide
  exact ⟨h6, hp, C9_hex_byte_scale _ _ h6 hp⟩

/-! ## Claims about the interpolation contract -/

/-- **C5** — For every input point set and every target cell whose coordinate
lies outside the convex hull of the input coordinates (outside every triangle
of the triangulation, whose union is the hull), `interpolate` marks the cell
"no data" (`Option.none`, distinct from every numeric value); it never
assigns such a cell an extrapolated number. -/
theorem C5_outside_hull_no_data (pts : List Pt3) (tris : List (Pt3 × Pt3 × Pt3))
    (q : ℚ × ℚ) (htri : triangulate pts = Except.ok tris)
    (hout : ∀ tr ∈ tris, inTriangle tr q = false) :
    interpolate pts q = Except.ok none ∧
    ∀ z : ℚ, interpolate pts q ≠ Except.ok (some z) := by
  have hfind : tris.find? (fun tr => inTriangle tr q) = none :=
    List.find?_eq_none.mpr fun tr htr => by simp [hout tr htr]
  have hval : interpolate pts q = Except.ok none := by
    simp [interpolate, htri, griddata_point, hfind]
  exact ⟨hval, fun z => by simp [hval]⟩

/-- Witness for `C5_outside_hull_no_data`: the target `(10, 10)` lies outside
the hull of the three points `(0,0)`, `(4,0)`, `(0,4)`. -/
theorem C5_outside_hull_no_data_witness :
    triangulate [⟨0, 0, 1⟩, ⟨4, 0, 2⟩, ⟨0, 4, 3⟩] =
      Except.ok
        [(⟨0, 0, 1⟩, ⟨4, 0, 2⟩, ⟨0, 4, 3⟩), (⟨0, 0, 1⟩, ⟨0, 4, 3⟩, ⟨4, 0, 2⟩),
         (⟨4, 0, 2⟩, ⟨0, 0, 1⟩, ⟨0, 4, 3⟩), (⟨4, 0, 2⟩, ⟨0, 4, 3⟩, ⟨0, 0, 1⟩),
         (⟨0, 4, 3⟩, ⟨0, 0, 1⟩, ⟨4, 0, 2⟩), (⟨0, 4, 3⟩, ⟨4, 0, 2⟩, ⟨0, 0, 1⟩)] ∧
    (∀ tr ∈
        [((⟨0, 0, 1⟩ : Pt3), (⟨4, 0, 2⟩ : Pt3), (⟨0, 4, 3⟩ : Pt3)),
         (⟨0, 0, 1⟩, ⟨0, 4, 3⟩, ⟨4, 0, 2⟩), (⟨4, 0, 2⟩, ⟨0, 0, 1⟩, ⟨0, 4, 3⟩),
         (⟨4, 0, 2⟩, ⟨0, 4, 3⟩, ⟨0, 0, 1⟩), (⟨0, 4, 3⟩, ⟨0, 0, 1⟩, ⟨4, 0, 2⟩),
         (⟨0, 4, 3⟩, ⟨4, 0, 2⟩, ⟨0, 0, 1⟩)],
        inTriangle tr (10, 10) = false) ∧
    (interpolate [⟨0, 0, 1⟩, ⟨4, 0, 2⟩, ⟨0, 4, 3⟩] (10, 10) = Except.ok none ∧
     ∀ z : ℚ,
       interpolate [⟨0, 0, 1⟩, ⟨4, 0, 2⟩, ⟨0, 4, 3⟩] (10, 10) ≠ Except.ok (some z)) := by
  have h1 : triangulate [(⟨0, 0, 1⟩ : Pt3), ⟨4, 0, 2⟩, ⟨0, 4, 3⟩] =
      Except.ok
        [(⟨0, 0, 1⟩, ⟨4, 0, 2⟩, ⟨0, 4, 3⟩), (⟨0, 0, 1⟩, ⟨0, 4, 3⟩, ⟨4, 0, 2⟩),
         (⟨4, 0, 2⟩, ⟨0, 0, 1⟩, ⟨0, 4, 3⟩), (⟨4, 0, 2⟩, ⟨0, 4, 3⟩, ⟨0, 0, 1⟩),
         (⟨0, 4, 3⟩, ⟨0, 0, 1⟩, ⟨4, 0, 2⟩), (⟨0, 4, 3⟩, ⟨4, 0, 2⟩, ⟨0, 0, 1⟩)] := by
    norm_num [triangulate, allTriples, cross2]
  have h2 : ∀ tr ∈
      [((⟨0, 0, 1⟩ : Pt3), (⟨4, 0, 2⟩ : Pt3), (⟨0, 4, 3⟩ : Pt3)),
       (⟨0, 0, 1⟩, ⟨0, 4, 3⟩, ⟨4, 0, 2⟩), (⟨4, 0, 2⟩, ⟨0, 0, 1⟩, ⟨0, 4, 3⟩),
       (⟨4, 0, 2⟩, ⟨0, 4, 3⟩, ⟨0, 0, 1⟩), (⟨0, 4, 3⟩, ⟨0, 0, 1⟩, ⟨4, 0, 2⟩),
       (⟨0, 4, 3⟩, ⟨4, 0, 2⟩, ⟨0, 0, 1⟩)],
      inTriangle tr (10, 10) = false := by
    intro tr htr
    simp only [List.mem_cons, List.not_mem_nil, or_false] at htr
    rcases htr with rfl | rfl | rfl | rfl | rfl | rfl <;>
      norm_num [inTriangle, cross2, baryW1, baryW2, baryW3]
  exact ⟨h1, h2, C5_outside_hull_no_data _ _ _ h1 h2⟩

/-- **C7** — For every point set with fewer than 3 non-collinear points
(every triple of its points collinear — in particular any set of exactly two
points), `interpolate` fails with `InsufficientDataError` rather than
returning any grid value. -/
theorem C7_insufficient_data (pts : List Pt3)
    (hcol : ∀ tr ∈ allTriples pts, cross2 tr.1 tr.2.1 tr.2.2 = 0) (q : ℚ × ℚ) :
    interpolate pts q = Except.error InterpErr.insufficientData := by
  have hany :
      ((allTriples pts).any fun tr => decide (cross2 tr.1 tr.2.1 tr.2.2 ≠ 0)) = false := by
    rw [List.any_eq_false]
    intro tr htr
    simpa using hcol tr htr
  unfold interpolate triangulate
  rw [hany]
  rfl

/-- Witness for `C7_insufficient_data`: a point set of exactly two points. -/
theorem C7_insufficient_data_witness :
    (∀ tr ∈ allTriples [(⟨0, 0, 1⟩ : Pt3), ⟨1, 0, 2⟩],
        cross2 tr.1 tr.2.1 tr.2.2 = 0) ∧
    interpolate [⟨0, 0, 1⟩, ⟨1, 0, 2⟩] (1 / 2, 0) =
      Except.error InterpErr.insufficientData := by
  have hcol : ∀ tr ∈ allTriples [(⟨0, 0, 1⟩ : Pt3), ⟨1, 0, 2⟩],
      cross2 tr.1 tr.2.1 tr.2.2 = 0 := by
    intro tr htr
    simp only [allTriples, List.flatMap_cons, List.flatMap_nil, List.map_cons,
      List.map_nil, List.append_nil, List.cons_append, List.nil_append, List.mem_cons,
      List.not_mem_nil, or_false] at htr
    rcases htr with rfl | rfl | rfl | rfl | rfl | rfl | rfl | rfl <;> norm_num [cross2]
  exact ⟨hcol, C7_insufficient_data _ hcol (1 / 2, 0)⟩

end PatsModel
